import Mathlib

/-!
Shallow embedding of the guard-form-build form builder and form viewer.

The repository is a React/Supabase form application.  The logic verified
here lives in `src/pages/FormBuilder.tsx` (field-sequence editing and
saving), `src/pages/FormViewer.tsx` (answer collection, validation and
submission) and the `FormFieldBuilder` component (field-type changes).
JavaScript objects used as string-keyed maps are embedded as association
lists (`List (String × α)`); `{...prev, [k]: v}` becomes `setKey`,
`delete m[k]` becomes `delKey`, and `m[k]` becomes `lookupKey`.  Arrays
are embedded as `List`; the one place where a JavaScript array can come
to hold `undefined` (the `moveField` swap) uses `List (Option Field)`.
-/

namespace GuardForm

/-- JS object read `m[k]` (keys are unique in all maps the app builds). -/
def lookupKey {α : Type} : List (String × α) → String → Option α
  | [], _ => none
  | p :: m, k => if p.1 = k then some p.2 else lookupKey m k

/-- JS spread-update `{...m, [k]: v}`: replace the entry in place, or append. -/
def setKey {α : Type} : List (String × α) → String → α → List (String × α)
  | [], k, v => [(k, v)]
  | p :: m, k, v => if p.1 = k then (k, v) :: m else p :: setKey m k v

/-- JS `delete m[k]`. -/
def delKey {α : Type} (m : List (String × α)) (k : String) : List (String × α) :=
  m.filter (fun p => p.1 != k)

/-- The seven field types of `FormField.type` in FormBuilder/FormViewer. -/
inductive FieldType
  | short_text
  | paragraph
  | multiple_choice
  | checkbox
  | dropdown
  | date
  | file_upload
deriving DecidableEq

/-- `['multiple_choice', 'checkbox', 'dropdown'].includes(value)` from
FormFieldBuilder's field-type `onValueChange`. -/
def isChoiceType (t : FieldType) : Bool :=
  [FieldType.multiple_choice, FieldType.checkbox, FieldType.dropdown].contains t

/-- The `FormField` interface shared by FormBuilder and FormViewer.
`options` and `placeholder` are optional keys (`undefined` = `none`). -/
structure Field where
  id : String
  type : FieldType
  label : String
  required : Bool
  options : Option (List String)
  placeholder : Option String
deriving DecidableEq

/-- A `Partial<FormField>` as passed to `updateField`.  The outer `Option`
records whether the key is present in the update object; for `options` and
`placeholder` the inner `Option` is the value itself, so that an explicit
`options: undefined` (used to clear options) is `some none`. -/
structure FieldUpdate where
  id? : Option String := none
  type? : Option FieldType := none
  label? : Option String := none
  required? : Option Bool := none
  options? : Option (Option (List String)) := none
  placeholder? : Option (Option String) := none
deriving DecidableEq

/-- JS spread merge `{ ...field, ...updates }` — keys present in the update
object override, including keys explicitly set to `undefined`. -/
def mergeField (f : Field) (u : FieldUpdate) : Field where
  id := u.id?.getD f.id
  type := u.type?.getD f.type
  label := u.label?.getD f.label
  required := u.required?.getD f.required
  options := match u.options? with
    | some v => v
    | none => f.options
  placeholder := match u.placeholder? with
    | some v => v
    | none => f.placeholder

/-- The update object built by FormFieldBuilder's field-type
`onValueChange`: always sets `type`; clears `options` when the new type is
not a choice type; seeds two default options when the new type is a choice
type and the field has no options (`!field.options`). -/
def typeChangeUpdates (field : Field) (value : FieldType) : FieldUpdate :=
  let updates : FieldUpdate := { type? := some value }
  let updates :=
    if !(isChoiceType value) then { updates with options? := some none } else updates
  let updates :=
    if isChoiceType value && field.options.isNone then
      { updates with options? := some (some ["Option 1", "Option 2"]) }
    else updates
  updates

/-- The new field literal built by FormBuilder's `addField`; `now` is the
value of `Date.now()`. -/
def newField (now : Nat) : Field :=
  { id := "field_" ++ toString now
    type := FieldType.short_text
    label := ""
    required := false
    options := none
    placeholder := some "" }

/-- FormBuilder `addField`: append the default new field. -/
def addField (fields : List Field) (now : Nat) : List Field :=
  fields ++ [newField now]

/-- FormBuilder `updateField`: merge the update into every field whose id
matches. -/
def updateField (fields : List Field) (fieldId : String) (u : FieldUpdate) : List Field :=
  fields.map (fun field => if field.id = fieldId then mergeField field u else field)

/-- FormBuilder `removeField`. -/
def removeField (fields : List Field) (fieldId : String) : List Field :=
  fields.filter (fun field => field.id != fieldId)

/-- Direction argument of `moveField`. -/
inductive Direction
  | up
  | down
deriving DecidableEq

/-- JS `Array.prototype.findIndex`: first matching index, `-1` if absent. -/
def findIdxJS : List Field → String → Int
  | [], _ => -1
  | f :: fs, fieldId =>
    if f.id = fieldId then 0
    else
      let r := findIdxJS fs fieldId
      if r = -1 then -1 else r + 1

/-- JS array read `arr[i]` on an array that may hold `undefined` entries:
a negative or out-of-range index reads `undefined`. -/
def jsGetElem (arr : List (Option Field)) (i : Int) : Option Field :=
  if i < 0 then none else (arr[i.toNat]?).getD none

/-- JS array write `arr[i] = v`: a negative index creates a plain object
property and leaves the sequence itself unchanged. -/
def jsSetElem (arr : List (Option Field)) (i : Int) (v : Option Field) : List (Option Field) :=
  if i < 0 then arr else arr.set i.toNat v

/-- `const newIndex = direction === 'up' ? index - 1 : index + 1` in
FormBuilder `moveField`. -/
def moveNewIndex (fields : List Field) (fieldId : String) (direction : Direction) : Int :=
  if direction = Direction.up then findIdxJS fields fieldId - 1
  else findIdxJS fields fieldId + 1

/-- FormBuilder `moveField`.  The result is a JS array whose entries can be
`undefined` (`none`): when the id is absent, `findIndex` yields `-1`, and
for direction `down` the bounds guard `newIndex < 0 || newIndex >=
fields.length` does not catch `index = -1`, so the destructuring swap
`[fields[index], fields[newIndex]] = [fields[newIndex], fields[index]]`
executes `fields[0] = fields[-1]`, i.e. writes `undefined` into slot 0.
The destructuring reads both right-hand sides from the original array,
then writes position `index` and then position `newIndex`. -/
def moveField (fields : List Field) (fieldId : String) (direction : Direction) :
    List (Option Field) :=
  if moveNewIndex fields fieldId direction < 0 ∨
      (fields.length : Int) ≤ moveNewIndex fields fieldId direction then
    fields.map some
  else
    jsSetElem
      (jsSetElem (fields.map some) (findIdxJS fields fieldId)
        (jsGetElem (fields.map some) (moveNewIndex fields fieldId direction)))
      (moveNewIndex fields fieldId direction)
      (jsGetElem (fields.map some) (findIdxJS fields fieldId))

/-- FormBuilder's `formData` state relevant to `handleSave`. -/
structure FormDataState where
  title : String
  description : String
  fields : List Field
  is_published : Bool
deriving DecidableEq

/-- The `formPayload` object `handleSave` sends to the store. -/
structure FormPayload where
  title : String
  description : String
  fields : List Field
  is_published : Bool
  owner_id : String
deriving DecidableEq

/-- Whitespace as recognised by trimming on the app's ASCII inputs. -/
def isJsSpace (c : Char) : Bool :=
  c = ' ' || c = '\t' || c = '\n' || c = '\r'

/-- JS `String.prototype.trim`. -/
def jsTrim (s : String) : String :=
  String.mk (((s.data.dropWhile isJsSpace).reverse.dropWhile isJsSpace).reverse)

/-- FormBuilder `handleSave`: bail out (no payload) when the title trims to
empty, otherwise build the payload; `is_published` is
`publish || formData.is_published`. -/
def handleSave (fd : FormDataState) (publish : Bool) (ownerId : String) :
    Option FormPayload :=
  if jsTrim fd.title = "" then none
  else some
    { title := fd.title
      description := fd.description
      fields := fd.fields
      is_published := publish || fd.is_published
      owner_id := ownerId }

/-- The local-state update `handleSave` performs after a successful update
of an existing form: `is_published: publish || prev.is_published`. -/
def handleSaveLocal (fd : FormDataState) (publish : Bool) : FormDataState :=
  { fd with is_published := publish || fd.is_published }

/-- An answer value as stored by FormViewer: a string (text, radio,
dropdown, date, file name) or an ordered sequence of strings (checkbox). -/
inductive Answer
  | astr (s : String)
  | alist (l : List String)
deriving DecidableEq

/-- The `answers` state object: field id (or reserved key) to value. -/
abbrev AnswerMap := List (String × Answer)

/-- The `errors` state object: field id to error message. -/
abbrev ErrorMap := List (String × String)

/-- JS `Array.prototype.join(",")`, as called by `Array.prototype.toString`. -/
def joinComma : List String → String
  | [] => ""
  | [s] => s
  | s :: rest => s ++ "," ++ joinComma rest

/-- The emptiness test of FormViewer `validateForm` on a required field's
answer: `!answer || (Array.isArray(answer) && answer.length === 0) ||
answer.toString().trim() === ''`.  An absent answer is falsy; a string is
falsy exactly when empty; an array is always truthy and its `toString` is
its comma-join. -/
def fieldAnswerMissing : Option Answer → Bool
  | none => true
  | some (Answer.astr s) => s = "" || jsTrim s = ""
  | some (Answer.alist l) => l.isEmpty || jsTrim (joinComma l) = ""

/-- The reserved-key test of `validateForm`:
`!answers[k] || !answers[k].trim()`.  The reserved keys `user_email` and
`user_name` only ever hold strings (they are set from text inputs); on a
list the real code would throw a TypeError at `.trim`, a point no theorem
below depends on. -/
def pseudoMissing : Option Answer → Bool
  | none => true
  | some (Answer.astr s) => jsTrim s = ""
  | some (Answer.alist _) => true

/-- One iteration of the `form?.fields.forEach` loop in `validateForm`. -/
def validateStep (answers : AnswerMap) (errs : ErrorMap) (field : Field) : ErrorMap :=
  if field.required && fieldAnswerMissing (lookupKey answers field.id) then
    setKey errs field.id "This field is required"
  else errs

/-- The reserved pseudo-field entries of `validateForm`'s `newErrors`:
when the session identity is unknown (`!userEmail` / `!userName`), the
`user_email` and `user_name` answers are checked first. -/
def pseudoErrors (userEmail userName : String) (answers : AnswerMap) : ErrorMap :=
  let e0 : ErrorMap := []
  let e1 :=
    if userEmail = "" && pseudoMissing (lookupKey answers "user_email") then
      setKey e0 "user_email" "Email is required"
    else e0
  if userName = "" && pseudoMissing (lookupKey answers "user_name") then
    setKey e1 "user_name" "Name is required"
  else e1

/-- FormViewer `validateForm`: the `newErrors` object it builds — the
reserved pseudo-field checks followed by the required-field check over the
field sequence in order. -/
def validateForm (userEmail userName : String) (fields : List Field)
    (answers : AnswerMap) : ErrorMap :=
  fields.foldl (validateStep answers) (pseudoErrors userEmail userName answers)

/-- FormViewer `updateAnswer`: set the answer at the field id, and delete
that field id's error when one is present. -/
def updateAnswer (answers : AnswerMap) (errors : ErrorMap) (fieldId : String)
    (value : Answer) : AnswerMap × ErrorMap :=
  ( setKey answers fieldId value,
    if (lookupKey errors fieldId).isSome then delKey errors fieldId else errors )

/-- `answers[field.id] || []` in the checkbox branch of `renderField`: the
current selection list.  An absent answer or empty string is falsy and
defaults to `[]`; a non-empty string never occurs for a checkbox field
(its answers are always lists, proved below), so its value here is
immaterial. -/
def checkboxCurrentOptions : Option Answer → List String
  | none => []
  | some (Answer.astr _) => []
  | some (Answer.alist l) => l

/-- A click on a checkbox option in `renderField`.  The rendered checkbox
is checked iff `selectedOptions.includes(option)`, so `onCheckedChange`
receives the negation of that: an option currently included is filtered
out (every occurrence), an option not included is appended. -/
def checkboxClick (answers : AnswerMap) (errors : ErrorMap) (fieldId option : String) :
    AnswerMap × ErrorMap :=
  if (checkboxCurrentOptions (lookupKey answers fieldId)).contains option then
    updateAnswer answers errors fieldId
      (Answer.alist ((checkboxCurrentOptions (lookupKey answers fieldId)).filter
        (· != option)))
  else
    updateAnswer answers errors fieldId
      (Answer.alist (checkboxCurrentOptions (lookupKey answers fieldId) ++ [option]))

/-- Answer-or-`undefined`, for the submission object: `userEmail ||
answers['user_email']` falls back to the raw (possibly absent) answer. -/
def jsOrAnswer (s : String) (a : Option Answer) : Option Answer :=
  if s = "" then a else some (Answer.astr s)

/-- The `answers` object of `submissionData` in `handleSubmit`: the
collected answers with the reserved identity keys overlaid. -/
def buildSubmissionAnswers (answers : AnswerMap) (userEmail userName : String) :
    List (String × Option Answer) :=
  let base := answers.map (fun p => (p.1, some p.2))
  setKey
    (setKey base "user_email" (jsOrAnswer userEmail (lookupKey answers "user_email")))
    "user_name" (jsOrAnswer userName (lookupKey answers "user_name"))

/-- A row of `form_responses` as inserted by `handleSubmit`. -/
structure Response where
  form_id : String
  user_id : Option String
  answers : List (String × Option Answer)
  time_taken : Nat
  user_agent : String
  tab_switches : Nat
deriving DecidableEq

/-- The FormViewer state touched by a submit attempt, with the
`form_responses` table modelled as the append-only `responses` list. -/
structure ViewerState where
  answers : AnswerMap
  errors : ErrorMap
  submitted : Bool
  responses : List Response
deriving DecidableEq

/-- FormViewer `handleSubmit`: run `validateForm` (which stores the new
error object); when any error exists, stop — no response row is built or
inserted; otherwise insert the submission and mark the view submitted. -/
def handleSubmit (userEmail userName formId : String) (userId : Option String)
    (fields : List Field) (timeTaken : Nat) (userAgent : String)
    (st : ViewerState) : ViewerState :=
  let newErrors := validateForm userEmail userName fields st.answers
  if newErrors.isEmpty then
    { st with
      errors := newErrors
      submitted := true
      responses := st.responses ++ [{
        form_id := formId
        user_id := userId
        answers := buildSubmissionAnswers st.answers userEmail userName
        time_taken := timeTaken
        user_agent := userAgent
        tab_switches := 0 }] }
  else
    { st with errors := newErrors }

/-- Modelled from the spec: the validation rule exactly as the spec words
it — a required field fails iff its answer is absent, an empty ordered
sequence, or a string that is empty after trimming whitespace.  Compared
against the code's `fieldAnswerMissing`. -/
def specMissingClaimed : Option Answer → Bool
  | none => true
  | some (Answer.astr s) => jsTrim s = ""
  | some (Answer.alist l) => l.isEmpty

/-- The amended validation rule: additionally, a sequence whose comma-join
trims to empty fails (equivalently, a one-element sequence whose only
element is whitespace). -/
def specMissingAmended : Option Answer → Bool
  | none => true
  | some (Answer.astr s) => jsTrim s = ""
  | some (Answer.alist l) => l.isEmpty || jsTrim (joinComma l) = ""

/-- The options invariant: `options` is defined iff the field's type is a
choice type. -/
def optionsInvariant (fields : List Field) : Prop :=
  ∀ f ∈ fields, f.options.isSome = isChoiceType f.type

instance (fields : List Field) : Decidable (optionsInvariant fields) :=
  inferInstanceAs (Decidable (∀ f ∈ fields, f.options.isSome = isChoiceType f.type))

/-- Shape test for a stored answer: absent or a list (never a string). -/
def isListAnswer : Option Answer → Bool
  | some (Answer.astr _) => false
  | _ => true

/-- A required short-text field, as in the spec's scenario. -/
def sampleText : Field :=
  { id := "f1", type := FieldType.short_text, label := "Your name",
    required := true, options := none, placeholder := some "" }

/-- An optional checkbox field, as in the spec's scenario. -/
def sampleCheckbox : Field :=
  { id := "f2", type := FieldType.checkbox, label := "Toppings",
    required := false, options := some ["Cheese", "Olives"], placeholder := none }

/-- An optional date field, used to exercise reordering. -/
def sampleDate : Field :=
  { id := "f3", type := FieldType.date, label := "When",
    required := false, options := none, placeholder := none }

/-- A required checkbox field whose answer will be the sequence [""]. -/
def cexCheckbox : Field :=
  { id := "c1", type := FieldType.checkbox, label := "Pick",
    required := true, options := some [""], placeholder := none }

/-- Builder state with a nonempty title, for exercising handleSave. -/
def sampleFormData : FormDataState :=
  { title := "My form", description := "", fields := [sampleText],
    is_published := true }

/-- The payload handleSave builds from `sampleFormData` with publish=false. -/
def samplePayload : FormPayload :=
  { title := "My form", description := "", fields := [sampleText],
    is_published := true, owner_id := "owner-1" }

/-- A concrete answers object. -/
def sampleAnswers : AnswerMap :=
  [("f1", Answer.astr "x"), ("f2", Answer.alist ["Cheese"])]

/-- A concrete errors object with two entries. -/
def sampleErrors : ErrorMap :=
  [("f1", "This field is required"), ("f2", "This field is required")]

theorem lookupKey_setKey_self {α : Type} (m : List (String × α)) (k : String) (v : α) :
    lookupKey (setKey m k v) k = some v := by
  induction m with
  | nil => simp [setKey, lookupKey]
  | cons p m ih =>
    by_cases h : p.1 = k
    · simp [setKey, h, lookupKey]
    · simp [setKey, h, lookupKey, ih]

theorem lookupKey_setKey_ne {α : Type} (m : List (String × α)) (k : String) (v : α)
    (k' : String) (h : k' ≠ k) :
    lookupKey (setKey m k v) k' = lookupKey m k' := by
  induction m with
  | nil => simp [setKey, lookupKey, Ne.symm h]
  | cons p m ih =>
    by_cases hp : p.1 = k
    · have hp' : ¬p.1 = k' := by rw [hp]; exact Ne.symm h
      simp [setKey, hp, lookupKey, hp', Ne.symm h]
    · by_cases hp' : p.1 = k'
      · simp [setKey, hp, lookupKey, hp', h]
      · simp [setKey, hp, lookupKey, hp', ih]

theorem lookupKey_delKey_self {α : Type} (m : List (String × α)) (k : String) :
    lookupKey (delKey m k) k = none := by
  induction m with
  | nil => rfl
  | cons p m ih =>
    by_cases h : p.1 = k
    · simpa [delKey, List.filter_cons, h] using ih
    · simpa [delKey, List.filter_cons, h, lookupKey] using ih

theorem lookupKey_delKey_ne {α : Type} (m : List (String × α)) (k k' : String)
    (h : k' ≠ k) :
    lookupKey (delKey m k) k' = lookupKey m k' := by
  induction m with
  | nil => rfl
  | cons p m ih =>
    by_cases hp : p.1 = k
    · have hp' : ¬p.1 = k' := by rw [hp]; exact Ne.symm h
      simpa [delKey, List.filter_cons, hp, lookupKey, hp', Ne.symm h] using ih
    · by_cases hp' : p.1 = k'
      · simp [delKey, List.filter_cons, hp, lookupKey, hp', h]
      · simpa [delKey, List.filter_cons, hp, lookupKey, hp'] using ih

theorem lookupKey_pseudoErrors_ne (userEmail userName : String) (answers : AnswerMap)
    (i : String) (h1 : i ≠ "user_email") (h2 : i ≠ "user_name") :
    lookupKey (pseudoErrors userEmail userName answers) i = none := by
  unfold pseudoErrors
  split
  · split
    · rw [lookupKey_setKey_ne _ _ _ _ h2, lookupKey_setKey_ne _ _ _ _ h1]; rfl
    · rw [lookupKey_setKey_ne _ _ _ _ h1]; rfl
  · split
    · rw [lookupKey_setKey_ne _ _ _ _ h2]; rfl
    · rfl

theorem lookupKey_validateFold_absent (answers : AnswerMap) (fields : List Field)
    (acc : ErrorMap) (i : String) (h : ∀ g ∈ fields, g.id ≠ i) :
    lookupKey (fields.foldl (validateStep answers) acc) i = lookupKey acc i := by
  induction fields generalizing acc with
  | nil => rfl
  | cons g fs ih =>
    have hg : g.id ≠ i := h g (List.mem_cons_self g fs)
    have h' : ∀ x ∈ fs, x.id ≠ i := fun x hx => h x (List.mem_cons_of_mem g hx)
    rw [List.foldl_cons, ih _ h']
    unfold validateStep
    split
    · exact lookupKey_setKey_ne _ _ _ _ (fun hk => hg hk.symm)
    · rfl

theorem lookupKey_validateFold_mem (answers : AnswerMap) (fields : List Field)
    (acc : ErrorMap) (f : Field) (hf : f ∈ fields)
    (hn : (fields.map Field.id).Nodup) (hacc : lookupKey acc f.id = none) :
    (lookupKey (fields.foldl (validateStep answers) acc) f.id).isSome
      = (f.required && fieldAnswerMissing (lookupKey answers f.id)) := by
  induction fields generalizing acc with
  | nil => cases hf
  | cons g fs ih =>
    rw [List.map_cons, List.nodup_cons] at hn
    rcases List.mem_cons.mp hf with rfl | hmem
    · have hnot : ∀ x ∈ fs, x.id ≠ f.id := by
        intro x hx hEq
        exact hn.1 (hEq ▸ List.mem_map_of_mem Field.id hx)
      rw [List.foldl_cons, lookupKey_validateFold_absent answers fs _ _ hnot]
      by_cases hcond : (f.required && fieldAnswerMissing (lookupKey answers f.id)) = true
      · simp [validateStep, hcond, lookupKey_setKey_self]
      · simp only [Bool.not_eq_true] at hcond
        simp [validateStep, hcond, hacc]
    · have hne : g.id ≠ f.id := by
        intro hEq
        exact hn.1 (hEq ▸ List.mem_map_of_mem Field.id hmem)
      rw [List.foldl_cons]
      refine ih _ hmem hn.2 ?_
      unfold validateStep
      split
      · rw [lookupKey_setKey_ne _ _ _ _ (Ne.symm hne)]
        exact hacc
      · exact hacc

theorem fieldAnswerMissing_eq_amended (a : Option Answer) :
    fieldAnswerMissing a = specMissingAmended a := by
  match a with
  | none => rfl
  | some (Answer.alist l) => rfl
  | some (Answer.astr s) =>
    show (decide (s = "") || decide (jsTrim s = "")) = decide (jsTrim s = "")
    by_cases hs : s = ""
    · subst hs; decide
    · simp [hs]

theorem findIdxJS_of_getElem (fields : List Field) (i : Nat) (f : Field)
    (hn : (fields.map Field.id).Nodup) (hi : fields[i]? = some f) :
    findIdxJS fields f.id = i := by
  induction fields generalizing i with
  | nil => simp at hi
  | cons g fs ih =>
    rw [List.map_cons, List.nodup_cons] at hn
    cases i with
    | zero =>
      rw [List.getElem?_cons_zero, Option.some_inj] at hi
      subst hi
      simp [findIdxJS]
    | succ n =>
      rw [List.getElem?_cons_succ] at hi
      have hmem : f ∈ fs := by
        rcases List.getElem?_eq_some_iff.mp hi with ⟨hlt, hEq⟩
        exact hEq ▸ List.getElem_mem hlt
      have hne : g.id ≠ f.id := by
        intro hEq
        exact hn.1 (hEq ▸ List.mem_map_of_mem Field.id hmem)
      have ihr := ih n hn.2 hi
      have hnneg : ¬((n : Int) = -1) := by omega
      simp only [findIdxJS, if_neg hne, ihr]
      rw [if_neg hnneg]
      omega

theorem findIdxJS_of_absent (fields : List Field) (fieldId : String)
    (h : ∀ f ∈ fields, f.id ≠ fieldId) :
    findIdxJS fields fieldId = -1 := by
  induction fields with
  | nil => rfl
  | cons g fs ih =>
    have hg : g.id ≠ fieldId := h g (List.mem_cons_self g fs)
    have h' : ∀ x ∈ fs, x.id ≠ fieldId := fun x hx => h x (List.mem_cons_of_mem g hx)
    simp [findIdxJS, hg, ih h']

theorem map_eq_self_of_fix {α : Type} (l : List α) (g : α → α)
    (h : ∀ a ∈ l, g a = a) : l.map g = l := by
  induction l with
  | nil => rfl
  | cons a l ih =>
    rw [List.map_cons, h a (List.mem_cons_self a l),
      ih (fun x hx => h x (List.mem_cons_of_mem a hx))]

theorem jsGetElem_map_some_mem (fields : List Field) (i : Int) (g : Field)
    (h : jsGetElem (fields.map some) i = some g) : g ∈ fields := by
  unfold jsGetElem at h
  split at h
  · cases h
  · match hv : (fields.map some)[i.toNat]? with
    | none => rw [hv] at h; cases h
    | some v =>
      rw [hv] at h
      simp only [Option.getD_some] at h
      subst h
      rcases List.getElem?_eq_some_iff.mp hv with ⟨hlt, hEq⟩
      have : some g ∈ fields.map some := hEq ▸ List.getElem_mem hlt
      rcases List.mem_map.mp this with ⟨x, hx, hxg⟩
      rw [Option.some_inj] at hxg
      exact hxg ▸ hx

theorem mem_of_mem_jsSetElem (arr : List (Option Field)) (i : Int) (v x : Option Field)
    (h : x ∈ jsSetElem arr i v) : x ∈ arr ∨ x = v := by
  unfold jsSetElem at h
  split at h
  · exact Or.inl h
  · exact List.mem_or_eq_of_mem_set h

theorem mem_of_map_some_mem (fields : List Field) (g : Field)
    (h : some g ∈ fields.map some) : g ∈ fields := by
  rcases List.mem_map.mp h with ⟨x, hx, hxg⟩
  rw [Option.some_inj] at hxg
  exact hxg ▸ hx

theorem mem_of_some_mem_moveField (fields : List Field) (fieldId : String)
    (direction : Direction) (g : Field)
    (h : some g ∈ moveField fields fieldId direction) : g ∈ fields := by
  unfold moveField at h
  split at h
  · exact mem_of_map_some_mem fields g h
  · rcases mem_of_mem_jsSetElem _ _ _ _ h with h1 | h1
    · rcases mem_of_mem_jsSetElem _ _ _ _ h1 with h2 | h2
      · exact mem_of_map_some_mem fields g h2
      · exact jsGetElem_map_some_mem _ _ _ h2.symm
    · exact jsGetElem_map_some_mem _ _ _ h1.symm

theorem jsGetElem_natCast (arr : List (Option Field)) (n : Nat) :
    jsGetElem arr (n : Int) = (arr[n]?).getD none := by
  unfold jsGetElem
  rw [if_neg (by omega), Int.toNat_natCast]

theorem jsSetElem_natCast (arr : List (Option Field)) (n : Nat) (v : Option Field) :
    jsSetElem arr (n : Int) v = arr.set n v := by
  unfold jsSetElem
  rw [if_neg (by omega), Int.toNat_natCast]

theorem swapArr_getElem (fields : List Field) (p q k : Nat)
    (hp : p < fields.length) (hq : q < fields.length) :
    (((fields.map some).set p (((fields.map some)[q]?).getD none)).set q
      (((fields.map some)[p]?).getD none))[k]?
      = (fields.map some)[if k = q then p else if k = p then q else k]? := by
  have hpm : (fields.map some)[p]? = some (some fields[p]) := by
    rw [List.getElem?_map, List.getElem?_eq_getElem hp]
    rfl
  have hqm : (fields.map some)[q]? = some (some fields[q]) := by
    rw [List.getElem?_map, List.getElem?_eq_getElem hq]
    rfl
  by_cases hkq : k = q
  · subst hkq
    simp [List.getElem?_set, List.length_set, List.length_map, hq, hpm, hqm]
  · have hqk : ¬(q = k) := fun hEq => hkq hEq.symm
    by_cases hkp : k = p
    · subst hkp
      simp [List.getElem?_set, List.length_set, List.length_map, hp, hqk, hkq, hpm,
        hqm, List.getElem?_eq_getElem hq]
    · have hpk : ¬(p = k) := fun hEq => hkp hEq.symm
      simp [List.getElem?_set, hqk, hpk, hkq, hkp]

/-- C3: switching a field's type via the FormFieldBuilder type selector
always stores the new type; when the new type is one of multiple_choice,
checkbox or dropdown and the field had no options, it seeds exactly
["Option 1", "Option 2"]; when the new type is not a choice type it
clears options to undefined. -/
theorem typeChange_seeds_and_clears_options (field : Field) (value : FieldType) :
    (mergeField field (typeChangeUpdates field value)).type = value ∧
    (field.options = none → isChoiceType value = true →
      (mergeField field (typeChangeUpdates field value)).options
        = some ["Option 1", "Option 2"]) ∧
    (isChoiceType value = false →
      (mergeField field (typeChangeUpdates field value)).options = none) := by
  refine ⟨?_, ?_, ?_⟩
  · by_cases hc : isChoiceType value <;> by_cases ho : field.options.isNone <;>
      simp [typeChangeUpdates, mergeField, hc, ho]
  · intro ho hc
    simp [typeChangeUpdates, mergeField, hc, ho]
  · intro hc
    simp [typeChangeUpdates, mergeField, hc]

/-- C3 witness: seeding on a type switch to dropdown of an option-less
field, and clearing on a switch of a checkbox field to paragraph. -/
theorem typeChange_seeds_and_clears_options_inst :
    (mergeField sampleText (typeChangeUpdates sampleText FieldType.dropdown)).options
      = some ["Option 1", "Option 2"] ∧
    (mergeField sampleCheckbox
        (typeChangeUpdates sampleCheckbox FieldType.paragraph)).options = none :=
  ⟨(typeChange_seeds_and_clears_options sampleText FieldType.dropdown).2.1
      (by decide) (by decide),
   (typeChange_seeds_and_clears_options sampleCheckbox FieldType.paragraph).2.2
      (by decide)⟩

/-- C9: when handleSave produces a payload, its is_published flag is
publish || current, hence saving a published form as a draft keeps it
published; the local-state update after saving obeys the same formula. -/
theorem handleSave_publish_monotone (fd : FormDataState) (publish : Bool)
    (ownerId : String) (payload : FormPayload)
    (h : handleSave fd publish ownerId = some payload) :
    payload.is_published = (publish || fd.is_published) ∧
    (fd.is_published = true → payload.is_published = true) ∧
    (handleSaveLocal fd publish).is_published = (publish || fd.is_published) := by
  unfold handleSave at h
  split at h
  · cases h
  · injection h with h
    subst h
    refine ⟨rfl, fun hp => ?_, rfl⟩
    simp [hp]

/-- C9 witness: a published builder state saved with publish=false keeps
is_published = true in the payload. -/
theorem handleSave_publish_monotone_inst :
    samplePayload.is_published = (false || sampleFormData.is_published) ∧
    (sampleFormData.is_published = true → samplePayload.is_published = true) ∧
    (handleSaveLocal sampleFormData false).is_published
      = (false || sampleFormData.is_published) :=
  handleSave_publish_monotone sampleFormData false "owner-1" samplePayload (by decide)

/-- C8: updateAnswer changes the answer map only at the given field id,
removes at most that field id's entry from the error map, and leaves every
other field's error unchanged. -/
theorem updateAnswer_frame (answers : AnswerMap) (errors : ErrorMap)
    (fieldId : String) (value : Answer) :
    lookupKey (updateAnswer answers errors fieldId value).1 fieldId = some value ∧
    lookupKey (updateAnswer answers errors fieldId value).2 fieldId = none ∧
    (∀ k, k ≠ fieldId →
      lookupKey (updateAnswer answers errors fieldId value).1 k = lookupKey answers k ∧
      lookupKey (updateAnswer answers errors fieldId value).2 k = lookupKey errors k) := by
  refine ⟨lookupKey_setKey_self _ _ _, ?_, ?_⟩
  · show lookupKey (if (lookupKey errors fieldId).isSome then delKey errors fieldId
        else errors) fieldId = none
    split
    · exact lookupKey_delKey_self _ _
    · next hs =>
      simpa using hs
  · intro k hk
    refine ⟨lookupKey_setKey_ne _ _ _ _ hk, ?_⟩
    show lookupKey (if (lookupKey errors fieldId).isSome then delKey errors fieldId
        else errors) k = lookupKey errors k
    split
    · exact lookupKey_delKey_ne _ _ _ hk
    · rfl

/-- C8 witness: updating the answer of f1 clears f1's error, keeps f2's
error, and stores the new answer at f1. -/
theorem updateAnswer_frame_inst :
    lookupKey (updateAnswer sampleAnswers sampleErrors "f1" (Answer.astr "y")).1 "f1"
      = some (Answer.astr "y") ∧
    lookupKey (updateAnswer sampleAnswers sampleErrors "f1" (Answer.astr "y")).2 "f1"
      = none ∧
    lookupKey (updateAnswer sampleAnswers sampleErrors "f1" (Answer.astr "y")).2 "f2"
      = lookupKey sampleErrors "f2" :=
  ⟨(updateAnswer_frame sampleAnswers sampleErrors "f1" (Answer.astr "y")).1,
   (updateAnswer_frame sampleAnswers sampleErrors "f1" (Answer.astr "y")).2.1,
   ((updateAnswer_frame sampleAnswers sampleErrors "f1" (Answer.astr "y")).2.2 "f2"
      (by decide)).2⟩

/-- C6 (amended): addField appends exactly one field, leaving every
existing position unchanged; the new field's id is "field_" plus the
current timestamp, its type is short_text and it is not required; the id
is unique among existing ids provided no existing field already carries
that timestamp id. -/
theorem addField_appends_default_field (fields : List Field) (now : Nat)
    (h : ("field_" ++ toString now) ∉ fields.map Field.id) :
    (addField fields now).length = fields.length + 1 ∧
    (∀ k, k < fields.length → (addField fields now)[k]? = fields[k]?) ∧
    (addField fields now)[fields.length]? = some (newField now) ∧
    (newField now).type = FieldType.short_text ∧
    (newField now).required = false ∧
    (newField now).id ∉ fields.map Field.id := by
  refine ⟨by simp [addField], ?_, ?_, rfl, rfl, h⟩
  · intro k hk
    simp [addField, List.getElem?_append, hk]
  · show (fields ++ [newField now])[fields.length]? = some (newField now)
    exact List.getElem?_concat_length fields (newField now)

/-- C6 witness: adding a field at a fresh timestamp to a one-field
sequence. -/
theorem addField_appends_default_field_inst :
    (addField [sampleText] 5).length = 2 ∧
    (newField 5).id ∉ [sampleText].map Field.id :=
  ⟨(addField_appends_default_field [sampleText] 5 (by decide)).1,
   (addField_appends_default_field [sampleText] 5 (by decide)).2.2.2.2.2⟩

/-- C6 counterexample: two addField calls in the same millisecond (same
Date.now() value) produce a duplicate id, so the generated id is not
always unique among the ids already in the sequence. -/
theorem addField_duplicate_id_cex :
    (addField (addField [] 7) 7).map Field.id = ["field_7", "field_7"] ∧
    ¬ ((addField (addField [] 7) 7).map Field.id).Nodup := by decide

/-- C1 (amended): for a form whose field ids are distinct and avoid the
reserved identity keys, validateForm reports an error for a field iff the
field is required and its answer is absent, an empty ordered sequence, a
string that trims to empty, or a sequence whose comma-join trims to empty
(i.e. a one-element sequence whose element is whitespace-only).  In
particular a field with required=false never receives an error, and a
missing required key yields an error for exactly that field id. -/
theorem validateForm_error_iff (userEmail userName : String) (fields : List Field)
    (answers : AnswerMap) (f : Field)
    (hn : (fields.map Field.id).Nodup)
    (hres : ∀ g ∈ fields, g.id ≠ "user_email" ∧ g.id ≠ "user_name")
    (hf : f ∈ fields) :
    (lookupKey (validateForm userEmail userName fields answers) f.id).isSome
      = (f.required && specMissingAmended (lookupKey answers f.id)) := by
  unfold validateForm
  rw [lookupKey_validateFold_mem answers fields _ f hf hn
      (lookupKey_pseudoErrors_ne _ _ _ _ (hres f hf).1 (hres f hf).2),
    fieldAnswerMissing_eq_amended]

/-- C1 witness: on the two-field sample form with no answers, the error
presence of the required text field matches the amended criterion. -/
theorem validateForm_error_iff_inst :
    (lookupKey (validateForm "a@b.c" "Ann" [sampleText, sampleCheckbox] [])
        sampleText.id).isSome
      = (sampleText.required && specMissingAmended (lookupKey [] sampleText.id)) :=
  validateForm_error_iff "a@b.c" "Ann" [sampleText, sampleCheckbox] [] sampleText
    (by decide) (by decide) (by decide)

/-- C1 counterexample: a required checkbox field answered with the
non-empty sequence [""] — not absent, not an empty sequence, not a string
— still receives an error, because the code also tests
`answer.toString().trim() === ''` and `[""].toString()` is `""`. -/
theorem validateForm_singleton_blank_list_cex :
    (lookupKey (validateForm "a@b.c" "Ann" [cexCheckbox]
        [("c1", Answer.alist [""])]) "c1").isSome = true ∧
    cexCheckbox.required = true ∧
    specMissingClaimed (lookupKey ([("c1", Answer.alist [""])] : AnswerMap) "c1")
      = false := by decide

/-- C7: after any checkbox click the stored answer is an ordered sequence,
and clicking a not-currently-selected option twice (select, then deselect
of the same option) restores the stored selection sequence. -/
theorem checkboxClick_select (answers : AnswerMap) (errors : ErrorMap)
    (fieldId option : String)
    (hnot : (checkboxCurrentOptions (lookupKey answers fieldId)).contains option
      = false) :
    checkboxClick answers errors fieldId option
      = updateAnswer answers errors fieldId
          (Answer.alist (checkboxCurrentOptions (lookupKey answers fieldId)
            ++ [option])) := by
  have h : ¬((checkboxCurrentOptions (lookupKey answers fieldId)).contains option
      = true) := by
    rw [hnot]
    exact Bool.false_ne_true
  unfold checkboxClick
  rw [if_neg h]

theorem checkboxClick_deselect (answers : AnswerMap) (errors : ErrorMap)
    (fieldId option : String)
    (hc : (checkboxCurrentOptions (lookupKey answers fieldId)).contains option
      = true) :
    checkboxClick answers errors fieldId option
      = updateAnswer answers errors fieldId
          (Answer.alist ((checkboxCurrentOptions (lookupKey answers fieldId)).filter
            (· != option))) := by
  unfold checkboxClick
  rw [if_pos hc]

theorem checkbox_toggle_restores (answers : AnswerMap) (errors : ErrorMap)
    (fieldId option : String)
    (_hlist : isListAnswer (lookupKey answers fieldId) = true)
    (hnot : (checkboxCurrentOptions (lookupKey answers fieldId)).contains option
      = false) :
    isListAnswer
      (lookupKey (checkboxClick answers errors fieldId option).1 fieldId) = true ∧
    lookupKey
        (checkboxClick (checkboxClick answers errors fieldId option).1
          (checkboxClick answers errors fieldId option).2 fieldId option).1 fieldId
      = some (Answer.alist (checkboxCurrentOptions (lookupKey answers fieldId))) := by
  have hmem : option ∉ checkboxCurrentOptions (lookupKey answers fieldId) := by
    intro hc
    have hcc : (checkboxCurrentOptions (lookupKey answers fieldId)).contains option
        = true := List.elem_iff.mpr hc
    rw [hcc] at hnot
    cases hnot
  have hfilter : (checkboxCurrentOptions (lookupKey answers fieldId)
      ++ [option]).filter (· != option)
      = checkboxCurrentOptions (lookupKey answers fieldId) := by
    rw [List.filter_append]
    have h1 : (checkboxCurrentOptions (lookupKey answers fieldId)).filter (· != option)
        = checkboxCurrentOptions (lookupKey answers fieldId) :=
      List.filter_eq_self.mpr (fun a ha => by
        simp only [bne_iff_ne, ne_eq]
        intro hEq
        exact hmem (hEq ▸ ha))
    have h2 : ([option].filter (· != option)) = ([] : List String) := by
      simp [List.filter_cons]
    rw [h1, h2, List.append_nil]
  have hlook1 : lookupKey (checkboxClick answers errors fieldId option).1 fieldId
      = some (Answer.alist (checkboxCurrentOptions (lookupKey answers fieldId)
          ++ [option])) := by
    rw [checkboxClick_select answers errors fieldId option hnot]
    exact lookupKey_setKey_self _ _ _
  refine ⟨by rw [hlook1]; rfl, ?_⟩
  have hcur2 : checkboxCurrentOptions
      (lookupKey (checkboxClick answers errors fieldId option).1 fieldId)
      = checkboxCurrentOptions (lookupKey answers fieldId) ++ [option] := by
    rw [hlook1]
    rfl
  have hcont2 : (checkboxCurrentOptions
      (lookupKey (checkboxClick answers errors fieldId option).1 fieldId)).contains
        option = true := by
    rw [hcur2]
    exact List.elem_iff.mpr (by simp)
  rw [checkboxClick_deselect _ _ _ _ hcont2, hcur2, hfilter]
  exact lookupKey_setKey_self _ _ _

/-- C7 witness: selecting then deselecting "Olives" on a checkbox whose
stored selection is ["Cheese"]. -/
theorem checkbox_toggle_restores_inst :
    isListAnswer
      (lookupKey (checkboxClick [("f2", Answer.alist ["Cheese"])] [] "f2"
        "Olives").1 "f2") = true ∧
    lookupKey
        (checkboxClick (checkboxClick [("f2", Answer.alist ["Cheese"])] [] "f2"
            "Olives").1
          (checkboxClick [("f2", Answer.alist ["Cheese"])] [] "f2" "Olives").2
          "f2" "Olives").1 "f2"
      = some (Answer.alist (checkboxCurrentOptions
          (lookupKey [("f2", Answer.alist ["Cheese"])] "f2"))) :=
  checkbox_toggle_restores [("f2", Answer.alist ["Cheese"])] [] "f2" "Olives"
    (by decide) (by decide)

/-- C4: every builder operation — addField, removeField, moveField and the
type-change update path — preserves the invariant that options is defined
iff the field type is a choice type. -/
theorem builder_ops_preserve_options_invariant (fields : List Field)
    (hinv : optionsInvariant fields) :
    (∀ now, optionsInvariant (addField fields now)) ∧
    (∀ fieldId, optionsInvariant (removeField fields fieldId)) ∧
    (∀ fieldId direction g, some g ∈ moveField fields fieldId direction →
      g.options.isSome = isChoiceType g.type) ∧
    (∀ f value, f ∈ fields → (fields.map Field.id).Nodup →
      optionsInvariant (updateField fields f.id (typeChangeUpdates f value))) := by
  refine ⟨?_, ?_, ?_, ?_⟩
  · intro now g hg
    rcases List.mem_append.mp hg with hg | hg
    · exact hinv g hg
    · rw [List.mem_singleton] at hg
      subst hg
      rfl
  · intro fieldId g hg
    exact hinv g (List.mem_filter.mp hg).1
  · intro fieldId direction g hg
    exact hinv g (mem_of_some_mem_moveField fields fieldId direction g hg)
  · intro f value hfmem hnodup g hg
    rcases List.mem_map.mp hg with ⟨x, hx, hxg⟩
    by_cases hxid : x.id = f.id
    · have hxf : x = f := List.inj_on_of_nodup_map hnodup hx hfmem hxid
      subst hxf
      rw [if_pos rfl] at hxg
      subst hxg
      by_cases hc : isChoiceType value = true
      · by_cases ho : x.options.isNone
        · simp [mergeField, typeChangeUpdates, hc, ho]
        · have : x.options.isSome = true := by
            cases hoo : x.options
            · rw [hoo] at ho; exact absurd rfl ho
            · rfl
          simp [mergeField, typeChangeUpdates, hc, ho, this]
      · rw [Bool.not_eq_true] at hc
        simp [mergeField, typeChangeUpdates, hc]
    · rw [if_neg hxid] at hxg
      subst hxg
      exact hinv x hx

/-- C4 witness: the invariant holds for the two-field sample sequence and
is preserved by removal and by a type change of the text field to
dropdown. -/
theorem builder_ops_preserve_options_invariant_inst :
    optionsInvariant (removeField [sampleText, sampleCheckbox] "f1") ∧
    optionsInvariant (updateField [sampleText, sampleCheckbox] sampleText.id
      (typeChangeUpdates sampleText FieldType.dropdown)) :=
  ⟨(builder_ops_preserve_options_invariant [sampleText, sampleCheckbox]
      (by decide)).2.1 "f1",
   (builder_ops_preserve_options_invariant [sampleText, sampleCheckbox]
      (by decide)).2.2.2 sampleText FieldType.dropdown (by decide) (by decide)⟩

/-- C5: submitting the form [required short_text f1, optional checkbox f2]
with the text field empty yields a validation error for f1 only, leaves
the answer map unchanged, and appends no response row. -/
theorem requiredEmpty_submit_rejected (rs : List Response) :
    handleSubmit "ann@example.com" "Ann" "form-1" (some "user-1")
        [sampleText, sampleCheckbox] 4 "test-agent"
        { answers := [("f1", Answer.astr "")], errors := [], submitted := false,
          responses := rs }
      = { answers := [("f1", Answer.astr "")],
          errors := [("f1", "This field is required")], submitted := false,
          responses := rs } := rfl

/-- C2: for a sequence of fields with distinct ids, moveField is a no-op
when invoked with up on the first field or down on the last field;
otherwise it swaps exactly the addressed field with its neighbor in the
given direction and every other field keeps its position. -/
theorem moveField_swap_spec (fields : List Field) (i : Nat) (f : Field)
    (hn : (fields.map Field.id).Nodup) (hi : fields[i]? = some f) :
    (i = 0 → moveField fields f.id Direction.up = fields.map some) ∧
    (i + 1 = fields.length → moveField fields f.id Direction.down = fields.map some) ∧
    (∀ j, i = j + 1 → ∀ k,
      (moveField fields f.id Direction.up)[k]?
        = (fields.map some)[if k = j then i else if k = i then j else k]?) ∧
    (i + 1 < fields.length → ∀ k,
      (moveField fields f.id Direction.down)[k]?
        = (fields.map some)[if k = i + 1 then i else if k = i then i + 1 else k]?) := by
  have hidx : findIdxJS fields f.id = (i : Int) := findIdxJS_of_getElem fields i f hn hi
  have hilen : i < fields.length := (List.getElem?_eq_some_iff.mp hi).1
  have hup : moveNewIndex fields f.id Direction.up = (i : Int) - 1 := by
    unfold moveNewIndex
    rw [if_pos rfl, hidx]
  have hdown : moveNewIndex fields f.id Direction.down = (i : Int) + 1 := by
    unfold moveNewIndex
    rw [if_neg (by intro hc; cases hc), hidx]
  refine ⟨?_, ?_, ?_, ?_⟩
  · rintro rfl
    unfold moveField
    rw [hup]
    split
    · rfl
    · next hguard => exact absurd (Or.inl (by omega)) hguard
  · intro hlen
    unfold moveField
    rw [hdown]
    split
    · rfl
    · next hguard => exact absurd (Or.inr (by omega)) hguard
  · rintro j rfl k
    unfold moveField
    rw [hup, hidx]
    split
    · next hguard =>
      exfalso
      rcases hguard with h1 | h1 <;> omega
    · have hsub : ((j + 1 : Nat) : Int) - 1 = ((j : Nat) : Int) := by push_cast; ring
      rw [hsub, jsGetElem_natCast, jsGetElem_natCast, jsSetElem_natCast,
        jsSetElem_natCast]
      exact swapArr_getElem fields (j + 1) j k hilen (by omega)
  · intro hlen k
    unfold moveField
    rw [hdown, hidx]
    split
    · next hguard =>
      exfalso
      rcases hguard with h1 | h1 <;> omega
    · have hadd : ((i : Nat) : Int) + 1 = ((i + 1 : Nat) : Int) := by push_cast; ring
      rw [hadd, jsGetElem_natCast, jsGetElem_natCast, jsSetElem_natCast,
        jsSetElem_natCast]
      exact swapArr_getElem fields i (i + 1) k hilen (by omega)

/-- C2 witness: moving the middle field of a three-field sequence up puts
it at position 0 and the first field at position 1. -/
theorem moveField_swap_spec_inst :
    (moveField [sampleText, sampleCheckbox, sampleDate] sampleCheckbox.id
        Direction.up)[0]?
      = ([sampleText, sampleCheckbox, sampleDate].map some)[1]? :=
  (moveField_swap_spec [sampleText, sampleCheckbox, sampleDate] 1 sampleCheckbox
    (by decide) (by decide)).2.2.1 0 rfl 0

/-- C10 (amended): for a field id absent from the sequence, updateField
and removeField leave the sequence unchanged, and so does moveField with
direction up (and with direction down on an empty sequence); but moveField
with direction down on a non-empty sequence overwrites the first entry
with undefined, because the bounds guard does not catch findIndex's -1. -/
theorem absent_id_builder_ops (fields : List Field) (fieldId : String) (u : FieldUpdate)
    (h : ∀ f ∈ fields, f.id ≠ fieldId) :
    updateField fields fieldId u = fields ∧
    removeField fields fieldId = fields ∧
    moveField fields fieldId Direction.up = fields.map some ∧
    (fields = [] → moveField fields fieldId Direction.down = fields.map some) ∧
    (∀ g gs, fields = g :: gs →
      moveField fields fieldId Direction.down = none :: gs.map some) := by
  have hidx : findIdxJS fields fieldId = -1 := findIdxJS_of_absent fields fieldId h
  have hup : moveNewIndex fields fieldId Direction.up = -2 := by
    unfold moveNewIndex
    rw [if_pos rfl, hidx]
    decide
  have hdown : moveNewIndex fields fieldId Direction.down = 0 := by
    unfold moveNewIndex
    rw [if_neg (by intro hc; cases hc), hidx]
    decide
  refine ⟨?_, ?_, ?_, ?_, ?_⟩
  · exact map_eq_self_of_fix _ _ (fun a ha => if_neg (h a ha))
  · exact List.filter_eq_self.mpr (fun a ha => by
      simp only [bne_iff_ne, ne_eq]
      exact h a ha)
  · unfold moveField
    rw [hup]
    split
    · rfl
    · next hguard => exact absurd (Or.inl (by omega)) hguard
  · rintro rfl
    unfold moveField
    rw [hdown]
    split
    · rfl
    · next hguard => exact absurd (Or.inr (by simp)) hguard
  · rintro g gs rfl
    unfold moveField
    rw [hdown, hidx]
    split
    · next hguard =>
      exfalso
      rcases hguard with h1 | h1
      · omega
      · rw [List.length_cons] at h1
        omega
    · have e1 : jsSetElem ((g :: gs).map some) (-1)
          (jsGetElem ((g :: gs).map some) 0) = (g :: gs).map some := by
        unfold jsSetElem
        rw [if_pos (by omega)]
      have e2 : jsGetElem ((g :: gs).map some) (-1) = none := by
        unfold jsGetElem
        rw [if_pos (by omega)]
      have e3 : jsSetElem ((g :: gs).map some) 0 (none : Option Field)
          = none :: gs.map some := by
        unfold jsSetElem
        rw [if_neg (by omega)]
        rfl
      rw [e1, e2, e3]

/-- C10 witness: all four operations with an absent id on a one-field
sequence, including the corrupted down-move. -/
theorem absent_id_builder_ops_inst :
    updateField [sampleText] "missing" {} = [sampleText] ∧
    removeField [sampleText] "missing" = [sampleText] ∧
    moveField [sampleText] "missing" Direction.up = [sampleText].map some ∧
    moveField [sampleText] "missing" Direction.down = [none] :=
  ⟨(absent_id_builder_ops [sampleText] "missing" {} (by decide)).1,
   (absent_id_builder_ops [sampleText] "missing" {} (by decide)).2.1,
   (absent_id_builder_ops [sampleText] "missing" {} (by decide)).2.2.1,
   (absent_id_builder_ops [sampleText] "missing" {} (by decide)).2.2.2.2
     sampleText [] rfl⟩

/-- C10 counterexample: moveField down with an id absent from a one-field
sequence does not leave the sequence unchanged — it replaces the first
entry with undefined. -/
theorem moveField_absent_id_down_cex :
    (∀ f ∈ [sampleText], f.id ≠ "missing") ∧
    moveField [sampleText] "missing" Direction.down = [none] ∧
    ([none] : List (Option Field)) ≠ [some sampleText] := by decide

end GuardForm
